import Mathlib

/-!
Verification development for the tennis_simulator repository.

The definitions below are shallow embeddings of the functions of the
web front-end (`apps/web/components/pages/BracketsPage.tsx`, the Sim-Lab
page and the shared type module) and, where the back-end engine source is
not part of the repository snapshot, models built from the specification
document.  JavaScript numbers are embedded as rationals (`ℚ`), optional
fields as `Option`, and JavaScript's stable `Array.prototype.sort` as
`List.insertionSort`.
-/

set_option maxHeartbeats 1000000

namespace TennisSim


/-! ## Sim-Lab weight configuration (src/unnamed/part_003, `SimLabPage`) -/

/-- Weight state of the Sim-Lab page: four surface weights plus the two
form-adjustment parameters, as in the `PRESETS` records. -/
structure SimWeights where
  elo : ℚ
  helo : ℚ
  celo : ℚ
  gelo : ℚ
  formScale : ℚ
  formCap : ℚ
deriving DecidableEq

/-- Embeds `const totalWeight = weights.elo + weights.helo + weights.celo + weights.gelo`. -/
def totalWeight (w : SimWeights) : ℚ :=
  w.elo + w.helo + w.celo + w.gelo

/-- Embeds `const isValidWeights = Math.abs(totalWeight - 1.0) < 0.01`. -/
def isValidWeights (w : SimWeights) : Bool :=
  decide (|totalWeight w - 1| < 0.01)

/-- The Run Simulation button carries `disabled={!isValidWeights || isSimulating}`;
the run action is reachable exactly when the button is enabled. -/
def runSimulationEnabled (w : SimWeights) (isSimulating : Bool) : Bool :=
  isValidWeights w && !isSimulating

/-! ## Shared weight presets (src/unnamed/part_011) and the surface
dispatch of `BracketsPage.tsx` (`baseWeights`) -/

/-- Shared `EloWeights` record of the types module. -/
structure EloWeights where
  elo_weight : ℚ
  helo_weight : ℚ
  celo_weight : ℚ
  gelo_weight : ℚ
  form_elo_scale : ℚ
  form_elo_cap : ℚ
deriving DecidableEq

/-- Embeds `DEFAULT_WEIGHT_PRESETS` from the shared types module. -/
def DEFAULT_WEIGHT_PRESETS : List (String × EloWeights) :=
  [(("Overall (default)"), ⟨0.45, 0.25, 0.20, 0.10, 100, 50⟩),
   (("Hard Court Focus"), ⟨0.25, 0.50, 0.15, 0.10, 100, 50⟩),
   (("Clay Court Focus"), ⟨0.25, 0.15, 0.50, 0.10, 100, 50⟩),
   (("Grass Court Focus"), ⟨0.25, 0.15, 0.10, 0.50, 100, 50⟩),
   (("Elo Only"), ⟨1.0, 0.0, 0.0, 0.0, 0, 0⟩)]

/-- Sum of the four surface weights of an `EloWeights` record. -/
def surfaceWeightSum (w : EloWeights) : ℚ :=
  w.elo_weight + w.helo_weight + w.celo_weight + w.gelo_weight

/-- The four-field weight object produced by the `baseWeights` surface
dispatch in `BracketsPage.tsx` (the form fields are spread in separately). -/
structure BaseWeights where
  elo_weight : ℚ
  helo_weight : ℚ
  celo_weight : ℚ
  gelo_weight : ℚ
deriving DecidableEq

/-- Embeds the `baseWeights` conditional chain of `BracketsPage.tsx`
(lines 46-53): hard, clay, grass, otherwise overall. -/
def baseWeights (surface : String) : BaseWeights :=
  if surface = "hard" then ⟨0.25, 0.5, 0.15, 0.1⟩
  else if surface = "clay" then ⟨0.25, 0.15, 0.5, 0.1⟩
  else if surface = "grass" then ⟨0.25, 0.15, 0.1, 0.5⟩
  else ⟨0.45, 0.25, 0.2, 0.1⟩

/-- Sum of the four surface weights of a `BaseWeights` record. -/
def baseWeightSum (w : BaseWeights) : ℚ :=
  w.elo_weight + w.helo_weight + w.celo_weight + w.gelo_weight

/-! ## Scorito metrics (ScoritoPage in `BracketsPage.tsx`) -/

/-- Embeds `100 / Math.max((r.points_std ?? 0) + 1, 1)` — the
robustness/consistency column of the Scorito optimizer table. -/
def robustness (points_std : Option ℚ) : ℚ :=
  100 / max (points_std.getD 0 + 1) 1

/-- Modelled from the spec: the back-end Scorito optimizer
(`services/api`, absent from the repository snapshot) computes
`risk_adj_value = expected_points / max(points_std + 1, 1)`. -/
def risk_adj_value (expected_points points_std : ℚ) : ℚ :=
  expected_points / max (points_std + 1) 1

/-! ## Scoring tables -/

/-- Shared `ScoringRules` record: one list of per-round point values per tier. -/
structure ScoringRules where
  A : List ℚ
  B : List ℚ
  C : List ℚ
  D : List ℚ
deriving DecidableEq

/-- Embeds `ROUND_LABELS` (shared types module and ScoritoPage). -/
def ROUND_LABELS : List String :=
  [("R1"), ("R2"), ("R3"), ("R4"), ("QF"), ("SF"), ("F")]

namespace SharedTypes

/-- Embeds `DEFAULT_SCORING` of the shared types module (src/unnamed/part_011). -/
def DEFAULT_SCORING : ScoringRules :=
  ⟨[10, 20, 35, 55, 80, 120, 180],
   [15, 30, 50, 80, 120, 180, 270],
   [20, 40, 70, 110, 170, 260, 400],
   [25, 50, 90, 150, 230, 350, 550]⟩

end SharedTypes

namespace WebScorito

/-- Embeds `DEFAULT_SCORING` of the ScoritoPage (`BracketsPage.tsx` lines 423-428). -/
def DEFAULT_SCORING : ScoringRules :=
  ⟨[10, 20, 30, 40, 60, 80, 100],
   [20, 40, 60, 80, 100, 120, 140],
   [30, 60, 90, 120, 140, 160, 180],
   [60, 90, 120, 160, 180, 200, 200]⟩

end WebScorito

/-- Non-decreasing ≤ along a list, and the 4-tier pointwise comparison,
both needed by the scoring-table invariant. -/
def tierTable (t : ScoringRules) : List (List ℚ) :=
  [t.A, t.B, t.C, t.D]

/-! ## Expected points (ScoritoOptimizer) and win probability (RatingModel).
The back-end engine source (`services/api`, Python `tennis_simulator`) is
not part of the repository snapshot, so these are modelled from the spec. -/

/-- Modelled from the spec: the ScoritoOptimizer computes expected points
as the sum over rounds of the incremental point value of reaching each
round, weighted by the probability of reaching it; the round-0 baseline
contributes nothing.  `pts` is one tier row of the scoring table, `reach`
the per-round reach probabilities. -/
def expectedPoints (pts reach : List ℚ) : ℚ :=
  ∑ i ∈ Finset.range pts.length,
    (pts.getD i 0 - (if i = 0 then 0 else pts.getD (i - 1) 0)) * reach.getD i 0

/-- Modelled from the spec: the RatingModel converts a rating difference
into a win probability with the logistic form
`p = 1 / (1 + 10 ^ (-(ratingA - ratingB) / 400))`; the back-end
implementation is not part of the repository snapshot. -/
noncomputable def winProbability (ratingA ratingB : ℝ) : ℝ :=
  1 / (1 + (10:ℝ) ^ (-(ratingA - ratingB) / 400))

/-! ## Drop-off detection (`dropOffIndices` in the ScoritoPage of
`BracketsPage.tsx`, lines 569-617) -/

/-- The fields of a `ScoritoResult` row that the drop-off utility and the
robustness column read; fields the utility never touches are omitted. -/
structure ScoritoRow where
  player_name : String
  tier : String
  expected_points : ℚ
  avg_round : ℚ
  points_std : Option ℚ
  risk_adj_value : Option ℚ
  form_trend : Option ℚ
  simulation_strength : Option ℚ
  path_strength : Option ℚ
deriving DecidableEq

/-- Embeds the `numericKeys` set of `dropOffIndices`. -/
def numericKeys : List String :=
  [("expected_points"), ("risk_adj_value"), ("robustness"), ("form_trend"),
   ("avg_round"), ("simulation_strength"), ("path_strength")]

/-- Embeds the metric-extraction `switch` of `dropOffIndices`
(missing numeric fields read as 0, robustness recomputed inline). -/
def metricValue (r : ScoritoRow) (key : String) : ℚ :=
  if key = "expected_points" then r.expected_points
  else if key = "simulation_strength" then (r.simulation_strength).getD 0
  else if key = "path_strength" then (r.path_strength).getD 0
  else if key = "risk_adj_value" then (r.risk_adj_value).getD 0
  else if key = "robustness" then 100 / max ((r.points_std).getD 0 + 1) 1
  else if key = "form_trend" then (r.form_trend).getD 0
  else if key = "avg_round" then r.avg_round
  else 0

/-- The metric values of the ranked row list, in ranking order. -/
def dropValues (rows : List ScoritoRow) (key : String) : List ℚ :=
  rows.map (fun r => metricValue r key)

/-- Embeds `[...values].sort((a, b) => a - b)` — ascending stable sort. -/
def sortedVals (values : List ℚ) : List ℚ :=
  List.insertionSort (· ≤ ·) values

/-- Embeds `sortedVals[Math.floor(sortedVals.length * 0.25)] ?? 0`. -/
def p25 (values : List ℚ) : ℚ :=
  (sortedVals values).getD (values.length / 4) 0

/-- Embeds `sortedVals[Math.floor(sortedVals.length * 0.75)] ?? 0`. -/
def p75 (values : List ℚ) : ℚ :=
  (sortedVals values).getD (3 * values.length / 4) 0

/-- Embeds `const iqr = Math.max(p75 - p25, 1)`. -/
def iqr (values : List ℚ) : ℚ :=
  max (p75 values - p25 values) 1

/-- Embeds `const absThreshold = Math.max(iqr * 0.25, 1)`. -/
def absThreshold (values : List ℚ) : ℚ :=
  max (iqr values * 0.25) 1

/-- The gap between adjacent metric values taken in the sort direction:
`sortDir === 'desc' ? prev - curr : curr - prev`. -/
def dirDiff (desc : Bool) (prev curr : ℚ) : ℚ :=
  if desc then prev - curr else curr - prev

/-- Embeds `dropOffIndices`: for a numeric sort key and at least two
values, flag index i ≥ 1 when the directed gap has relative size ≥ 0.08
(relative to `max(|prev|, 1)`) or absolute size ≥ the threshold. -/
def dropOffIndices (rows : List ScoritoRow) (key : String) (desc : Bool) : List ℕ :=
  if key ∈ numericKeys then
    if (dropValues rows key).length < 2 then []
    else
      (List.range (dropValues rows key).length).filter (fun i =>
        decide (1 ≤ i) &&
        decide (0.08 ≤
            dirDiff desc ((dropValues rows key).getD (i - 1) 0)
                ((dropValues rows key).getD i 0) /
              max |(dropValues rows key).getD (i - 1) 0| 1 ∨
          absThreshold (dropValues rows key) ≤
            dirDiff desc ((dropValues rows key).getD (i - 1) 0)
              ((dropValues rows key).getD i 0)))
  else []

/-- A row carrying only an expected-points metric, for concrete instances. -/
def mkRow (q : ℚ) : ScoritoRow :=
  ⟨("P"), ("A"), q, 1, none, none, none, none, none⟩

/-- A descending uniformly-spaced metric list with step 1. -/
def uniformRows : List ScoritoRow :=
  [mkRow 4, mkRow 3, mkRow 2, mkRow 1]

/-- A two-row list with one large gap. -/
def gapRows : List ScoritoRow :=
  [mkRow 10, mkRow 1]

/-- A descending list with small steps relative to the thresholds. -/
def smoothRows : List ScoritoRow :=
  [mkRow 1000, mkRow 999.5, mkRow 999]

/-! ## Draw matches and the upset watch (`BracketsPage.tsx` lines 140-169) -/

/-- The shared `DrawMatch` record (src/unnamed/part_011): optional fields
of the TypeScript interface become `Option`. -/
structure DrawMatch where
  id : ℕ
  round : String
  match_index : ℤ
  player1_name : Option String
  player2_name : Option String
  player1_bye : Bool
  player2_bye : Bool
  child_match1_id : Option ℕ
  child_match2_id : Option ℕ
  player1_prob : Option ℚ
  player2_prob : Option ℚ
  winner : Option String
deriving DecidableEq

/-- One entry of the upset-watch list, as built by the `map` step. -/
structure UpsetEntry where
  round : String
  matchIndex : ℤ
  favorite : String
  underdog : String
  favoriteProb : ℚ
  underdogProb : ℚ
deriving DecidableEq

/-- Embeds the first filter of `upsetWatch`: both names truthy (present
and non-empty) and both probabilities numeric (present). -/
def upsetCandidate (m : DrawMatch) : Bool :=
  !((m.player1_name.getD ("")) == ("")) && !((m.player2_name.getD ("")) == ("")) &&
    m.player1_prob.isSome && m.player2_prob.isSome

/-- Embeds the `map` step of `upsetWatch`: the player with the larger
probability is the favorite (ties to player 1), probabilities split
into max/min. -/
def toUpsetEntry (m : DrawMatch) : UpsetEntry :=
  { round := m.round
    matchIndex := m.match_index
    favorite :=
      if m.player2_prob.getD 0 ≤ m.player1_prob.getD 0 then m.player1_name.getD ("")
      else m.player2_name.getD ("")
    underdog :=
      if m.player2_prob.getD 0 ≤ m.player1_prob.getD 0 then m.player2_name.getD ("")
      else m.player1_name.getD ("")
    favoriteProb := max (m.player1_prob.getD 0) (m.player2_prob.getD 0)
    underdogProb := min (m.player1_prob.getD 0) (m.player2_prob.getD 0) }

/-- Embeds the second filter of `upsetWatch`:
`m.underdog && m.underdogProb > 0 && m.underdogProb <= 0.45`. -/
def upsetKeep (e : UpsetEntry) : Bool :=
  !(e.underdog == ("")) && decide (0 < e.underdogProb) && decide (e.underdogProb ≤ 0.45)

/-- The descending comparison `(a, b) => b.underdogProb - a.underdogProb`. -/
def underdogGE (a b : UpsetEntry) : Prop :=
  b.underdogProb ≤ a.underdogProb

instance : DecidableRel underdogGE :=
  fun a b => inferInstanceAs (Decidable (b.underdogProb ≤ a.underdogProb))

instance : IsTotal UpsetEntry underdogGE :=
  ⟨fun a b => le_total b.underdogProb a.underdogProb⟩

instance : IsTrans UpsetEntry underdogGE :=
  ⟨fun _ _ _ hab hbc => le_trans hbc hab⟩

/-- Embeds `upsetWatch`: filter, map, filter, sort by descending underdog
probability, then `slice(0, 6)`. -/
def upsetWatch (ms : List DrawMatch) : List UpsetEntry :=
  (List.insertionSort underdogGE
    (((ms.filter upsetCandidate).map toUpsetEntry).filter upsetKeep)).take 6

/-- A concrete candidate match for the C9 witness. -/
def upsetMatch : DrawMatch :=
  { id := 1, round := ("R1"), match_index := 0,
    player1_name := some ("Alice"), player2_name := some ("Bob"),
    player1_bye := false, player2_bye := false,
    child_match1_id := none, child_match2_id := none,
    player1_prob := some 0.6, player2_prob := some 0.4, winner := none }

/-! ## Bracket tree construction (`buildTree` in `BracketsPage.tsx`,
lines 85-119).  The `byId` JavaScript `Map` (last write wins) is embedded
as `byIdGet`, child attachment as `childrenNodes`, and the root selection
as `buildTreeRoot`. -/

/-- Embeds `byId.has(i)` after all matches are inserted. -/
def hasId (ms : List DrawMatch) (i : ℕ) : Bool :=
  ms.any (fun m => m.id == i)

/-- Embeds `byId.get(i)`: a `Map` keyed by id keeps the last inserted
match with that id. -/
def byIdGet (ms : List DrawMatch) (i : ℕ) : Option DrawMatch :=
  ms.reverse.find? (fun m => m.id == i)

/-- The child ids a match references (`child_match1_id`, `child_match2_id`),
before the truthiness/presence checks. -/
def refIds (m : DrawMatch) : List ℕ :=
  m.child_match1_id.toList ++ m.child_match2_id.toList

/-- The referenced child ids that survive the attachment guard
`m.child_matchK_id && byId.has(m.child_matchK_id)` (0 is falsy in
JavaScript, hence the `c != 0` test). -/
def childIds (ms : List DrawMatch) (m : DrawMatch) : List ℕ :=
  (refIds m).filter (fun c => c != 0 && hasId ms c)

/-- The child nodes attached to `m`'s node by the `forEach` attachment
loop, looked up through the id map. -/
def childrenNodes (ms : List DrawMatch) (m : DrawMatch) : List DrawMatch :=
  (childIds ms m).filterMap (fun c => byIdGet ms c)

/-- Ascending comparison on `match_index`, as in
`finals.sort((a, b) => a.match_index - b.match_index)`. -/
def matchIndexLE (a b : DrawMatch) : Prop :=
  a.match_index ≤ b.match_index

instance : DecidableRel matchIndexLE :=
  fun a b => inferInstanceAs (Decidable (a.match_index ≤ b.match_index))

/-- The Final-round matches sorted ascending by `match_index`. -/
def finalsSorted (ms : List DrawMatch) : List DrawMatch :=
  List.insertionSort matchIndexLE (ms.filter (fun m => m.round == ("F")))

/-- Embeds the root selection of `buildTree`: the first Final match by
`match_index` when one exists, otherwise the first listed match, resolved
through the id map. -/
def buildTreeRoot (ms : List DrawMatch) : Option DrawMatch :=
  match (finalsSorted ms).head? with
  | some f => byIdGet ms f.id
  | none => ms.head?.bind (fun m => byIdGet ms m.id)

/-- The Final match of the C8 witness draw. -/
def witnessFinal : DrawMatch :=
  { id := 3, round := ("F"), match_index := 0,
    player1_name := none, player2_name := none,
    player1_bye := false, player2_bye := false,
    child_match1_id := some 1, child_match2_id := some 2,
    player1_prob := none, player2_prob := none, winner := none }

/-- A well-formed three-match draw: two first-round matches feeding one Final. -/
def witnessDraw : List DrawMatch :=
  [{ id := 1, round := ("R1"), match_index := 0,
     player1_name := none, player2_name := none,
     player1_bye := false, player2_bye := false,
     child_match1_id := none, child_match2_id := none,
     player1_prob := none, player2_prob := none, winner := none },
   { id := 2, round := ("R1"), match_index := 1,
     player1_name := none, player2_name := none,
     player1_bye := false, player2_bye := false,
     child_match1_id := none, child_match2_id := none,
     player1_prob := none, player2_prob := none, winner := none },
   witnessFinal]

/-! ## Theorems -/

/-- C3 counterexample: the Sim-Lab validity predicate accepts the weight
vector (1.005, 0, 0, 0), whose total differs from 1.0 by 0.005 ≥ 1e-6, so
validity is not equivalent to `|sum - 1| < 1e-6` as the claim states. -/
theorem weights_epsilon_counterexample :
    isValidWeights ⟨1.005, 0, 0, 0, 100, 50⟩ = true ∧
    ¬ (|totalWeight ⟨1.005, 0, 0, 0, 100, 50⟩ - 1| < 1e-6) := by
  constructor
  · simp only [isValidWeights, totalWeight, decide_eq_true_eq, abs_lt]
    norm_num
  · simp only [totalWeight, abs_lt, not_and, not_lt]
    norm_num

/-- C3 (amended): the validity predicate of the Sim-Lab page holds exactly
when the four surface weights sum to 1.0 within epsilon 0.01 (not 1e-6),
and when it fails the Run Simulation action is disabled. -/
theorem weights_validity_amended :
    (∀ w : SimWeights, isValidWeights w = true ↔ |totalWeight w - 1| < 0.01) ∧
    (∀ (w : SimWeights) (b : Bool),
      isValidWeights w = false → runSimulationEnabled w b = false) := by
  constructor
  · intro w
    simp [isValidWeights]
  · intro w b h
    simp [runSimulationEnabled, h]

/-- Witness for the amended C3 at the concrete invalid weight vector
(0.5, 0, 0, 0): the predicate fails there, and the run action is disabled. -/
theorem weights_validity_amended_witness :
    isValidWeights ⟨0.5, 0, 0, 0, 100, 50⟩ = false ∧
    runSimulationEnabled ⟨0.5, 0, 0, 0, 100, 50⟩ false = false := by
  have h : isValidWeights ⟨0.5, 0, 0, 0, 100, 50⟩ = false := by
    simp only [isValidWeights, totalWeight, decide_eq_false_iff_not, abs_lt, not_and, not_lt]
    norm_num
  exact ⟨h, weights_validity_amended.2 ⟨0.5, 0, 0, 0, 100, 50⟩ false h⟩

/-- C7: every named preset of `DEFAULT_WEIGHT_PRESETS` and every branch of
the `baseWeights` surface dispatch is a convex combination: the four
surface weights are non-negative and sum to exactly 1. -/
theorem weight_presets_convex :
    (∀ pr ∈ DEFAULT_WEIGHT_PRESETS,
      0 ≤ pr.2.elo_weight ∧ 0 ≤ pr.2.helo_weight ∧ 0 ≤ pr.2.celo_weight ∧
      0 ≤ pr.2.gelo_weight ∧ surfaceWeightSum pr.2 = 1) ∧
    (∀ s : String,
      0 ≤ (baseWeights s).elo_weight ∧ 0 ≤ (baseWeights s).helo_weight ∧
      0 ≤ (baseWeights s).celo_weight ∧ 0 ≤ (baseWeights s).gelo_weight ∧
      baseWeightSum (baseWeights s) = 1) := by
  constructor
  · intro pr hpr
    fin_cases hpr <;> norm_num [surfaceWeightSum]
  · intro s
    unfold baseWeights
    split_ifs <;> norm_num [baseWeightSum]

/-- Witness for C7 at the 'Overall (default)' preset and the 'hard' surface. -/
theorem weight_presets_convex_witness :
    ((("Overall (default)"), (⟨0.45, 0.25, 0.20, 0.10, 100, 50⟩ : EloWeights))
        ∈ DEFAULT_WEIGHT_PRESETS) ∧
    (0 ≤ (⟨0.45, 0.25, 0.20, 0.10, 100, 50⟩ : EloWeights).elo_weight ∧
     0 ≤ (⟨0.45, 0.25, 0.20, 0.10, 100, 50⟩ : EloWeights).helo_weight ∧
     0 ≤ (⟨0.45, 0.25, 0.20, 0.10, 100, 50⟩ : EloWeights).celo_weight ∧
     0 ≤ (⟨0.45, 0.25, 0.20, 0.10, 100, 50⟩ : EloWeights).gelo_weight ∧
     surfaceWeightSum ⟨0.45, 0.25, 0.20, 0.10, 100, 50⟩ = 1) ∧
    baseWeightSum (baseWeights ("hard")) = 1 :=
  ⟨by unfold DEFAULT_WEIGHT_PRESETS; exact List.mem_cons_self _ _,
   weight_presets_convex.1 ((("Overall (default)"), ⟨0.45, 0.25, 0.20, 0.10, 100, 50⟩))
     (by unfold DEFAULT_WEIGHT_PRESETS; exact List.mem_cons_self _ _),
   (weight_presets_convex.2 ("hard")).2.2.2.2⟩

/-- C10: in both built-in default scoring tables every tier holds exactly
one value per round label (7 values), each tier's values are non-decreasing
from R1 to F, and for each round position the tiers compare pointwise
A ≤ B ≤ C ≤ D. -/
theorem default_scoring_tables_monotone :
    (SharedTypes.DEFAULT_SCORING.A.length = ROUND_LABELS.length ∧
     SharedTypes.DEFAULT_SCORING.B.length = ROUND_LABELS.length ∧
     SharedTypes.DEFAULT_SCORING.C.length = ROUND_LABELS.length ∧
     SharedTypes.DEFAULT_SCORING.D.length = ROUND_LABELS.length ∧
     WebScorito.DEFAULT_SCORING.A.length = ROUND_LABELS.length ∧
     WebScorito.DEFAULT_SCORING.B.length = ROUND_LABELS.length ∧
     WebScorito.DEFAULT_SCORING.C.length = ROUND_LABELS.length ∧
     WebScorito.DEFAULT_SCORING.D.length = ROUND_LABELS.length) ∧
    (∀ tier ∈ tierTable SharedTypes.DEFAULT_SCORING, tier.Sorted (· ≤ ·)) ∧
    (∀ tier ∈ tierTable WebScorito.DEFAULT_SCORING, tier.Sorted (· ≤ ·)) ∧
    (List.Forall₂ (· ≤ ·) SharedTypes.DEFAULT_SCORING.A SharedTypes.DEFAULT_SCORING.B ∧
     List.Forall₂ (· ≤ ·) SharedTypes.DEFAULT_SCORING.B SharedTypes.DEFAULT_SCORING.C ∧
     List.Forall₂ (· ≤ ·) SharedTypes.DEFAULT_SCORING.C SharedTypes.DEFAULT_SCORING.D) ∧
    (List.Forall₂ (· ≤ ·) WebScorito.DEFAULT_SCORING.A WebScorito.DEFAULT_SCORING.B ∧
     List.Forall₂ (· ≤ ·) WebScorito.DEFAULT_SCORING.B WebScorito.DEFAULT_SCORING.C ∧
     List.Forall₂ (· ≤ ·) WebScorito.DEFAULT_SCORING.C WebScorito.DEFAULT_SCORING.D) := by
  refine ⟨by decide, ?_, ?_, ?_, ?_⟩
  · intro tier ht
    fin_cases ht <;>
      norm_num [SharedTypes.DEFAULT_SCORING, List.sorted_cons]
  · intro tier ht
    fin_cases ht <;>
      norm_num [WebScorito.DEFAULT_SCORING, List.sorted_cons]
  · refine ⟨?_, ?_, ?_⟩ <;>
      norm_num [SharedTypes.DEFAULT_SCORING, List.forall₂_cons]
  · refine ⟨?_, ?_, ?_⟩ <;>
      norm_num [WebScorito.DEFAULT_SCORING, List.forall₂_cons]

/-- Witness for C10's bounded quantifier at the shared A tier. -/
theorem default_scoring_tables_monotone_witness :
    (SharedTypes.DEFAULT_SCORING.A ∈ tierTable SharedTypes.DEFAULT_SCORING) ∧
    SharedTypes.DEFAULT_SCORING.A.Sorted (· ≤ ·) :=
  ⟨by simp [tierTable],
   default_scoring_tables_monotone.2.1 SharedTypes.DEFAULT_SCORING.A (by simp [tierTable])⟩

/-- C2: the consistency/robustness column equals `100 / max(points_std + 1, 1)`
with a missing standard deviation read as 0, the risk-adjusted value equals
`expected_points / max(points_std + 1, 1)`, and for non-negative points_std
the shared denominator is exactly `points_std + 1 ≥ 1`, so robustness is at
most 100 and the risk-adjusted value is bounded by the expected points. -/
theorem robustness_riskAdj_formula (std : Option ℚ) (ep s : ℚ)
    (hs : 0 ≤ s) (hstd : 0 ≤ std.getD 0) :
    robustness std = 100 / max (std.getD 0 + 1) 1 ∧
    risk_adj_value ep s = ep / max (s + 1) 1 ∧
    max (std.getD 0 + 1) 1 = std.getD 0 + 1 ∧
    max (s + 1) 1 = s + 1 ∧
    1 ≤ max (std.getD 0 + 1) 1 ∧
    1 ≤ max (s + 1) 1 ∧
    robustness std ≤ 100 ∧
    |risk_adj_value ep s| ≤ |ep| := by
  have h1 : (1:ℚ) ≤ max (std.getD 0 + 1) 1 := le_max_right _ _
  have h2 : (1:ℚ) ≤ max (s + 1) 1 := le_max_right _ _
  have h0 : (0:ℚ) < max (s + 1) 1 := lt_of_lt_of_le one_pos h2
  refine ⟨rfl, rfl, max_eq_left (by linarith), max_eq_left (by linarith), h1, h2, ?_, ?_⟩
  · show (100:ℚ) / max (std.getD 0 + 1) 1 ≤ 100
    exact div_le_self (by norm_num) h1
  · show |ep / max (s + 1) 1| ≤ |ep|
    rw [abs_div, abs_of_pos h0]
    exact div_le_self (abs_nonneg _) h2

/-- Witness for C2 at points_std = 3 and expected points 7 (risk side: std 2). -/
theorem robustness_riskAdj_formula_witness :
    (0:ℚ) ≤ 2 ∧ (0:ℚ) ≤ (Option.getD (some (3:ℚ)) 0) ∧
    (robustness (some 3) = 100 / max ((Option.getD (some (3:ℚ)) 0) + 1) 1 ∧
     risk_adj_value 7 2 = 7 / max ((2:ℚ) + 1) 1 ∧
     max ((Option.getD (some (3:ℚ)) 0) + 1) 1 = (Option.getD (some (3:ℚ)) 0) + 1 ∧
     max ((2:ℚ) + 1) 1 = 2 + 1 ∧
     1 ≤ max ((Option.getD (some (3:ℚ)) 0) + 1) 1 ∧
     1 ≤ max ((2:ℚ) + 1) 1 ∧
     robustness (some 3) ≤ 100 ∧
     |risk_adj_value 7 2| ≤ |(7:ℚ)|) :=
  ⟨by norm_num, by norm_num [Option.getD_some],
   robustness_riskAdj_formula (some 3) 7 2 (by norm_num) (by norm_num [Option.getD_some])⟩

theorem getD_map_mul (k : ℚ) (l : List ℚ) (i : ℕ) :
    (l.map (fun p => k * p)).getD i 0 = k * l.getD i 0 := by
  induction l generalizing i with
  | nil => simp [List.getD]
  | cons a t ih =>
      cases i with
      | zero => simp [List.getD]
      | succ j => simpa [List.getD] using ih j

/-- C5: scaling every entry of a scoring-table row by k scales the
expected points by exactly k, while the risk-adjusted value and the
robustness metric do not scale by k — at a table scaling of k = 2 the
points standard deviation also doubles, and the `max(std + 1, 1)`
denominator breaks linearity. -/
theorem scoringTable_linearity_asymmetry :
    (∀ (k : ℚ) (pts reach : List ℚ),
      expectedPoints (pts.map (fun p => k * p)) reach = k * expectedPoints pts reach) ∧
    risk_adj_value (2 * 10) (2 * 1) ≠ 2 * risk_adj_value 10 1 ∧
    robustness (some (2 * 1)) ≠ 2 * robustness (some 1) := by
  refine ⟨?_, ?_, ?_⟩
  · intro k pts reach
    unfold expectedPoints
    rw [List.length_map, Finset.mul_sum]
    refine Finset.sum_congr rfl ?_
    intro i _
    simp only [getD_map_mul]
    split_ifs <;> ring
  · have h3 : max ((2:ℚ) * 1 + 1) 1 = 3 := by norm_num
    have h2 : max ((1:ℚ) + 1) 1 = 2 := by norm_num
    simp only [risk_adj_value, h3, h2]
    norm_num
  · have h3 : max ((Option.getD (some ((2:ℚ) * 1)) 0) + 1) 1 = 3 := by
      norm_num [Option.getD_some]
    have h2 : max ((Option.getD (some (1:ℚ)) 0) + 1) 1 = 2 := by
      norm_num [Option.getD_some]
    simp only [robustness, h3, h2]
    norm_num

/-- C6: the win probability has the stated logistic form, lies strictly
between 0 and 1, is symmetric in the sense that the two orderings sum to
exactly 1, and equals exactly 1/2 at equal ratings. -/
theorem winProbability_logistic_properties (a b : ℝ) :
    winProbability a b = 1 / (1 + (10:ℝ) ^ (-(a - b) / 400)) ∧
    0 < winProbability a b ∧ winProbability a b < 1 ∧
    winProbability a b + winProbability b a = 1 ∧
    winProbability a a = 1 / 2 := by
  have hten : (0:ℝ) < 10 := by norm_num
  have ht : (0:ℝ) < (10:ℝ) ^ (-(a - b) / 400) := Real.rpow_pos_of_pos hten _
  set t : ℝ := (10:ℝ) ^ (-(a - b) / 400) with htdef
  have hflip : (10:ℝ) ^ (-(b - a) / 400) = t⁻¹ := by
    rw [show -(b - a) / 400 = -(-(a - b) / 400) by ring,
      Real.rpow_neg (le_of_lt hten)]
  have h1t : (0:ℝ) < 1 + t := by linarith
  refine ⟨rfl, ?_, ?_, ?_, ?_⟩
  · exact div_pos one_pos h1t
  · rw [winProbability, ← htdef, div_lt_one h1t]
    linarith
  · rw [winProbability, winProbability, ← htdef, hflip]
    have htne : t ≠ 0 := ne_of_gt ht
    have h1tne : 1 + t ≠ 0 := ne_of_gt h1t
    have h1tinv : 1 + t⁻¹ ≠ 0 := by positivity
    field_simp
    ring
  · rw [winProbability, show -(a - a) / 400 = 0 by ring, Real.rpow_zero]
    norm_num

theorem mem_dropOffIndices (rows : List ScoritoRow) (key : String) (desc : Bool) (i : ℕ) :
    i ∈ dropOffIndices rows key desc ↔
      key ∈ numericKeys ∧ 1 ≤ i ∧ i < (dropValues rows key).length ∧
      (0.08 ≤
          dirDiff desc ((dropValues rows key).getD (i - 1) 0)
              ((dropValues rows key).getD i 0) /
            max |(dropValues rows key).getD (i - 1) 0| 1 ∨
        absThreshold (dropValues rows key) ≤
          dirDiff desc ((dropValues rows key).getD (i - 1) 0)
            ((dropValues rows key).getD i 0)) := by
  unfold dropOffIndices
  by_cases hk : key ∈ numericKeys
  · rw [if_pos hk]
    by_cases hlen : (dropValues rows key).length < 2
    · rw [if_pos hlen]
      simp only [List.not_mem_nil, false_iff]
      rintro ⟨-, h1, h2, -⟩
      omega
    · rw [if_neg hlen]
      simp only [List.mem_filter, List.mem_range, Bool.and_eq_true, decide_eq_true_eq]
      constructor
      · rintro ⟨hi, h1, hcond⟩
        exact ⟨hk, h1, hi, hcond⟩
      · rintro ⟨-, h1, hi, hcond⟩
        exact ⟨hi, h1, hcond⟩
  · rw [if_neg hk]
    simp only [List.not_mem_nil, false_iff]
    rintro ⟨hk2, -⟩
    exact hk hk2

theorem absThreshold_eq_spec (values : List ℚ) :
    absThreshold values = max ((p75 values - p25 values) * 0.25) 1 := by
  unfold absThreshold iqr
  rcases le_total (p75 values - p25 values) 1 with h | h
  · rw [max_eq_right h, max_eq_right (by norm_num : (1:ℚ) * 0.25 ≤ 1),
      max_eq_right (by nlinarith : (p75 values - p25 values) * 0.25 ≤ 1)]
  · rw [max_eq_left h]

/-- C1: a boundary index i is flagged exactly when the sort key is one of
the numeric keys, the list holds at least two values, 1 ≤ i < length, and
the gap between ranked neighbours taken in the sort direction has relative
size ≥ 8% (relative to `max(|prev|, 1)`) or absolute size at least
`max(0.25 * IQR, 1)`, where IQR is `p75 - p25` of the ascending-sorted
values; in particular nothing is flagged for short lists or non-numeric keys. -/
theorem dropOff_boundary_rule (rows : List ScoritoRow) (key : String) (desc : Bool) (i : ℕ) :
    i ∈ dropOffIndices rows key desc ↔
      key ∈ numericKeys ∧ 2 ≤ (dropValues rows key).length ∧
      1 ≤ i ∧ i < (dropValues rows key).length ∧
      (0.08 ≤
          dirDiff desc ((dropValues rows key).getD (i - 1) 0)
              ((dropValues rows key).getD i 0) /
            max |(dropValues rows key).getD (i - 1) 0| 1 ∨
        max ((p75 (dropValues rows key) - p25 (dropValues rows key)) * 0.25) 1 ≤
          dirDiff desc ((dropValues rows key).getD (i - 1) 0)
            ((dropValues rows key).getD i 0)) := by
  rw [mem_dropOffIndices, ← absThreshold_eq_spec]
  constructor
  · rintro ⟨hk, h1, hi, hc⟩
    exact ⟨hk, by omega, h1, hi, hc⟩
  · rintro ⟨hk, -, h1, hi, hc⟩
    exact ⟨hk, h1, hi, hc⟩

/-- Witness instantiating the C1 boundary rule at a concrete two-row list. -/
theorem dropOff_boundary_rule_witness :
    (1 ∈ dropOffIndices [mkRow 10, mkRow 1] ("expected_points") true ↔
      ("expected_points") ∈ numericKeys ∧
      2 ≤ (dropValues [mkRow 10, mkRow 1] ("expected_points")).length ∧
      1 ≤ 1 ∧ 1 < (dropValues [mkRow 10, mkRow 1] ("expected_points")).length ∧
      (0.08 ≤
          dirDiff true
              ((dropValues [mkRow 10, mkRow 1] ("expected_points")).getD (1 - 1) 0)
              ((dropValues [mkRow 10, mkRow 1] ("expected_points")).getD 1 0) /
            max |(dropValues [mkRow 10, mkRow 1] ("expected_points")).getD (1 - 1) 0| 1 ∨
        max ((p75 (dropValues [mkRow 10, mkRow 1] ("expected_points")) -
              p25 (dropValues [mkRow 10, mkRow 1] ("expected_points"))) * 0.25) 1 ≤
          dirDiff true
            ((dropValues [mkRow 10, mkRow 1] ("expected_points")).getD (1 - 1) 0)
            ((dropValues [mkRow 10, mkRow 1] ("expected_points")).getD 1 0))) :=
  dropOff_boundary_rule [mkRow 10, mkRow 1] ("expected_points") true 1

/-- C4 counterexample: for the uniformly-spaced descending sequence
4, 3, 2, 1 the utility flags every one of the three adjacent boundaries
(the common step 1 reaches the absolute threshold floor of 1), so a
uniformly-spaced sequence does not in general produce an empty or minimal
boundary set. -/
theorem uniform_sequence_counterexample :
    dropOffIndices uniformRows ("expected_points") true = [1, 2, 3] ∧
    uniformRows.length - 1 = 3 := by
  constructor
  · norm_num [dropOffIndices, dropValues, uniformRows, mkRow, metricValue,
      numericKeys, absThreshold, iqr, p25, p75, sortedVals, dirDiff,
      List.insertionSort, List.orderedInsert, List.getD, List.range_succ,
      List.filter]
  · rfl

/-- C4 (amended): a boundary whose directed gap reaches the absolute
threshold `max(0.25 * IQR, 1)` is always flagged, so an inserted gap of at
least that size appears in the boundary set; and the boundary set is empty
whenever every adjacent directed gap is below the absolute threshold and
below 8% of `max(|prev|, 1)` — in particular a uniformly-spaced sequence
is boundary-free when its common step is below both bounds, though not in
general, as the uniform 4, 3, 2, 1 list shows. -/
theorem dropOff_gap_amended :
    (∀ (rows : List ScoritoRow) (key : String) (desc : Bool) (i : ℕ),
      key ∈ numericKeys → 1 ≤ i → i < (dropValues rows key).length →
      max ((p75 (dropValues rows key) - p25 (dropValues rows key)) * 0.25) 1 ≤
        dirDiff desc ((dropValues rows key).getD (i - 1) 0)
          ((dropValues rows key).getD i 0) →
      i ∈ dropOffIndices rows key desc) ∧
    (∀ (rows : List ScoritoRow) (key : String) (desc : Bool),
      (∀ i ∈ List.range (dropValues rows key).length, 1 ≤ i →
        dirDiff desc ((dropValues rows key).getD (i - 1) 0)
              ((dropValues rows key).getD i 0) /
            max |(dropValues rows key).getD (i - 1) 0| 1 < 0.08 ∧
        dirDiff desc ((dropValues rows key).getD (i - 1) 0)
            ((dropValues rows key).getD i 0) <
          absThreshold (dropValues rows key)) →
      dropOffIndices rows key desc = []) := by
  constructor
  · intro rows key desc i hk h1 hi hthr
    rw [← absThreshold_eq_spec] at hthr
    exact (mem_dropOffIndices rows key desc i).mpr ⟨hk, h1, hi, Or.inr hthr⟩
  · intro rows key desc hall
    rw [List.eq_nil_iff_forall_not_mem]
    intro i hm
    rcases (mem_dropOffIndices rows key desc i).mp hm with ⟨-, h1, hi, hc⟩
    rcases hall i (List.mem_range.mpr hi) h1 with ⟨hr, hd⟩
    rcases hc with hc | hc
    · linarith
    · linarith

/-- Witness for the amended C4: the 10-to-1 gap of `gapRows` is flagged at
index 1, and the small-step list `smoothRows` is boundary-free. -/
theorem dropOff_gap_amended_witness :
    (1 ∈ dropOffIndices gapRows ("expected_points") true) ∧
    dropOffIndices smoothRows ("expected_points") true = [] := by
  constructor
  · apply dropOff_gap_amended.1 gapRows ("expected_points") true 1
    · norm_num [numericKeys]
    · norm_num
    · norm_num [dropValues, gapRows]
    · norm_num [dropValues, gapRows, mkRow, metricValue, p25, p75,
        sortedVals, dirDiff, List.insertionSort, List.orderedInsert, List.getD]
  · apply dropOff_gap_amended.2 smoothRows ("expected_points") true
    intro i hi h1
    fin_cases hi
    · exact absurd h1 (by norm_num)
    · constructor <;>
        · norm_num [dropValues, smoothRows, mkRow, metricValue, absThreshold,
            iqr, p25, p75, sortedVals, dirDiff,
            List.insertionSort, List.orderedInsert, List.getD]
          try
            rw [show |(1999:ℚ) / 2| ⊔ 1 = 1999 / 2 by
              rw [abs_of_pos (by norm_num)]
              exact max_eq_left (by norm_num)]
            norm_num
    · constructor <;>
        · norm_num [dropValues, smoothRows, mkRow, metricValue, absThreshold,
            iqr, p25, p75, sortedVals, dirDiff,
            List.insertionSort, List.orderedInsert, List.getD]
          try
            rw [show |(1999:ℚ) / 2| ⊔ 1 = 1999 / 2 by
              rw [abs_of_pos (by norm_num)]
              exact max_eq_left (by norm_num)]
            norm_num

/-- C9: the upset-watch list has at most 6 entries; each entry comes from
a listed match with both names present and non-empty and both
probabilities numeric; each entry has underdog probability in (0, 0.45]
and no larger than its favorite probability; and the list is ordered by
non-increasing underdog probability. -/
theorem upsetWatch_props (ms : List DrawMatch) :
    (upsetWatch ms).length ≤ 6 ∧
    (∀ e ∈ upsetWatch ms,
      (∃ m ∈ ms, ¬ m.player1_name.getD ("") = ("") ∧ ¬ m.player2_name.getD ("") = ("") ∧
        m.player1_prob.isSome = true ∧ m.player2_prob.isSome = true ∧ e = toUpsetEntry m) ∧
      0 < e.underdogProb ∧ e.underdogProb ≤ 0.45 ∧ e.underdogProb ≤ e.favoriteProb) ∧
    (upsetWatch ms).Sorted underdogGE := by
  refine ⟨List.length_take_le _ _, ?_, ?_⟩
  · intro e he
    have h1 : e ∈ List.insertionSort underdogGE
        (((ms.filter upsetCandidate).map toUpsetEntry).filter upsetKeep) :=
      List.mem_of_mem_take he
    rw [List.mem_insertionSort, List.mem_filter] at h1
    obtain ⟨hmem, hkeep⟩ := h1
    rw [List.mem_map] at hmem
    obtain ⟨m, hm, rfl⟩ := hmem
    rw [List.mem_filter] at hm
    obtain ⟨hms, hcand⟩ := hm
    simp only [upsetCandidate, Bool.and_eq_true, Bool.not_eq_true',
      beq_eq_false_iff_ne, ne_eq] at hcand
    obtain ⟨⟨⟨hn1, hn2⟩, hp1⟩, hp2⟩ := hcand
    simp only [upsetKeep, Bool.and_eq_true, decide_eq_true_eq] at hkeep
    obtain ⟨⟨-, hpos⟩, hle⟩ := hkeep
    exact ⟨⟨m, hms, hn1, hn2, hp1, hp2, rfl⟩, hpos, hle, min_le_max⟩
  · exact List.Pairwise.sublist (List.take_sublist _ _)
      (List.sorted_insertionSort underdogGE _)

/-- Witness for C9 at a one-match list whose underdog has probability 0.4. -/
theorem upsetWatch_props_witness :
    (toUpsetEntry upsetMatch ∈ upsetWatch [upsetMatch]) ∧
    ((∃ m ∈ [upsetMatch],
        ¬ m.player1_name.getD ("") = ("") ∧ ¬ m.player2_name.getD ("") = ("") ∧
        m.player1_prob.isSome = true ∧ m.player2_prob.isSome = true ∧
        toUpsetEntry upsetMatch = toUpsetEntry m) ∧
      0 < (toUpsetEntry upsetMatch).underdogProb ∧
      (toUpsetEntry upsetMatch).underdogProb ≤ 0.45 ∧
      (toUpsetEntry upsetMatch).underdogProb ≤ (toUpsetEntry upsetMatch).favoriteProb) := by
  have hm : toUpsetEntry upsetMatch ∈ upsetWatch [upsetMatch] := by
    norm_num [upsetWatch, upsetCandidate, upsetKeep, toUpsetEntry, upsetMatch,
      List.insertionSort, List.orderedInsert, List.filter]
  exact ⟨hm, (upsetWatch_props [upsetMatch]).2.1 (toUpsetEntry upsetMatch) hm⟩

theorem find?_id_eq_of_nodup {l : List DrawMatch} {m : DrawMatch}
    (hnd : (l.map (fun x => x.id)).Nodup) (hm : m ∈ l) :
    l.find? (fun x => x.id == m.id) = some m := by
  induction l with
  | nil => cases hm
  | cons a t ih =>
      rw [List.map_cons, List.nodup_cons] at hnd
      obtain ⟨hna, hnt⟩ := hnd
      rcases List.mem_cons.mp hm with rfl | hmt
      · exact List.find?_cons_of_pos t (by simp)
      · have hne : ¬ ((fun x => x.id == m.id) a = true) := by
          simp only [beq_iff_eq]
          intro h
          exact hna (h ▸ List.mem_map_of_mem (fun x => x.id) hmt)
        exact (List.find?_cons_of_neg t hne).trans (ih hnt hmt)

theorem byIdGet_eq {ms : List DrawMatch} {m : DrawMatch}
    (hnd : (ms.map (fun x => x.id)).Nodup) (hm : m ∈ ms) :
    byIdGet ms m.id = some m := by
  have h1 : (ms.reverse.map (fun x => x.id)).Nodup := by
    rw [List.map_reverse, List.nodup_reverse]
    exact hnd
  exact find?_id_eq_of_nodup h1 (List.mem_reverse.mpr hm)

theorem filter_eq_single {l : List DrawMatch} {f : DrawMatch} (p : DrawMatch → Bool)
    (hnd : l.Nodup) (hf : f ∈ l) (hiff : ∀ x ∈ l, p x = true ↔ x = f) :
    l.filter p = [f] := by
  induction l with
  | nil => cases hf
  | cons a t ih =>
      rw [List.nodup_cons] at hnd
      obtain ⟨hat, hnt⟩ := hnd
      rcases List.mem_cons.mp hf with rfl | hft
      · rw [List.filter_cons_of_pos ((hiff f (List.mem_cons_self f t)).mpr rfl)]
        have hnil : t.filter p = [] := by
          rw [List.filter_eq_nil_iff]
          intro x hx hpx
          exact hat (((hiff x (List.mem_cons_of_mem _ hx)).mp hpx) ▸ hx)
        rw [hnil]
      · have hpa : ¬ (p a = true) := by
          intro hpa
          exact hat (((hiff a (List.mem_cons_self a t)).mp hpa) ▸ hft)
        rw [List.filter_cons_of_neg hpa]
        exact ih hnt hft (fun x hx => hiff x (List.mem_cons_of_mem _ hx))

/-- C8 counterexample: for the non-empty match list consisting of a single
first-round match, `buildTree` returns a root whose round is 'R1', not a
Final-round node — the claimed invariant fails for arbitrary non-empty
input. -/
theorem buildTree_root_counterexample :
    (buildTreeRoot
        [{ id := 1, round := ("R1"), match_index := 0,
           player1_name := none, player2_name := none,
           player1_bye := false, player2_bye := false,
           child_match1_id := none, child_match2_id := none,
           player1_prob := none, player2_prob := none,
           winner := none }]).map (fun m => m.round) = some ("R1") ∧
    ("R1") ≠ ("F") := by
  exact ⟨rfl, by decide⟩

/-- C8 (amended): for a match list with distinct nonzero ids containing
exactly one Final-round match, the constructed tree is rooted at that
Final match; if additionally every non-Final match's id is referenced as a
child by exactly one match, then every non-Final match is attached as a
child of exactly one parent; and a match whose surviving child references
are empty has no attached children. -/
theorem buildTree_wellformed_amended (ms : List DrawMatch) (f : DrawMatch)
    (hnd : (ms.map (fun x => x.id)).Nodup)
    (hid0 : ∀ m ∈ ms, m.id ≠ 0)
    (hf : f ∈ ms) (hfr : f.round = ("F"))
    (huniq : ∀ m ∈ ms, m.round = ("F") → m = f)
    (href : ∀ m ∈ ms, m.round ≠ ("F") →
      ms.countP (fun p => decide (m.id ∈ refIds p)) = 1) :
    buildTreeRoot ms = some f ∧
    (∀ m ∈ ms, m.round ≠ ("F") →
      ms.countP (fun p => decide (m ∈ childrenNodes ms p)) = 1) ∧
    (∀ p ∈ ms, childIds ms p = [] → childrenNodes ms p = []) := by
  have hndl : ms.Nodup := List.Nodup.of_map _ hnd
  refine ⟨?_, ?_, ?_⟩
  · have hfilter : ms.filter (fun m => m.round == ("F")) = [f] := by
      apply filter_eq_single _ hndl hf
      intro x hx
      constructor
      · intro hpx
        exact huniq x hx (by simpa using hpx)
      · rintro rfl
        simpa using hfr
    have hsorted : finalsSorted ms = [f] := by
      rw [finalsSorted, hfilter]
      simp [List.insertionSort, List.orderedInsert]
    rw [buildTreeRoot, hsorted]
    simpa using byIdGet_eq hnd hf
  · intro m hm hmr
    have key : ∀ p ∈ ms,
        (decide (m ∈ childrenNodes ms p) = true) ↔
        (decide (m.id ∈ refIds p) = true) := by
      intro p _
      simp only [decide_eq_true_eq]
      constructor
      · intro hmem
        obtain ⟨c, hc, hcg⟩ := List.mem_filterMap.mp hmem
        have hcid : m.id = c := by
          have hpm := List.find?_some hcg
          simpa [beq_iff_eq] using hpm
        rw [hcid]
        exact List.mem_of_mem_filter hc
      · intro hr
        have h0 : m.id ≠ 0 := hid0 m hm
        have hhas : hasId ms m.id = true := by
          rw [hasId, List.any_eq_true]
          exact ⟨m, hm, by simp⟩
        have hcm : m.id ∈ childIds ms p :=
          List.mem_filter.mpr ⟨hr, by simp [bne_iff_ne, h0, hhas]⟩
        exact List.mem_filterMap.mpr ⟨m.id, hcm, byIdGet_eq hnd hm⟩
    rw [List.countP_congr key]
    exact href m hm hmr
  · intro p _ hempty
    rw [childrenNodes, hempty]
    rfl

/-- Witness for the amended C8 at the concrete three-match draw. -/
theorem buildTree_wellformed_amended_witness :
    buildTreeRoot witnessDraw = some witnessFinal ∧
    (∀ m ∈ witnessDraw, m.round ≠ ("F") →
      witnessDraw.countP (fun p => decide (m ∈ childrenNodes witnessDraw p)) = 1) ∧
    (∀ p ∈ witnessDraw, childIds witnessDraw p = [] → childrenNodes witnessDraw p = []) :=
  buildTree_wellformed_amended witnessDraw witnessFinal
    (by decide) (by decide) (by decide) (by decide) (by decide) (by decide)

/-- Witness instantiating the C5 linearity half at a concrete table row. -/
theorem scoringTable_linearity_asymmetry_witness :
    expectedPoints (List.map (fun p => (2:ℚ) * p) [10, 20]) [1, 1] =
      2 * expectedPoints [10, 20] [1, 1] :=
  scoringTable_linearity_asymmetry.1 2 [10, 20] [1, 1]

end TennisSim
